import Mathlib

/-!
Shallow embedding of the task-tracker core: the Zustand task store
(`src/store/useTaskStore.js`) and the task-list filter engine
(the `TaskList` component).

JavaScript objects are modelled as Lean structures.  A task object produced
by the store always carries `id`, `status` and `subtasks` (the store's
`addTask` supplies defaults for them), while the remaining keys may be
absent, hence `Option`.  The argument objects passed to `addTask` /
`updateTask` may contain any subset of the keys, hence every field of
`Fields` is an `Option`; JavaScript's spread merge `{ ...a, ...b }` is
modelled key by key: a key present in `b` wins, otherwise the value of `a`
is kept.  `nanoid()` is modelled by an explicit identifier argument
(respectively an identifier-generating function for the module-load-time
initial data), since the only property the store relies on is which ids the
generator returns.
-/

namespace TodoApp

structure Subtask where
  id : String
  text : String
  done : Bool
deriving DecidableEq

structure Task where
  id : String
  title : Option String := none
  description : Option String := none
  dueDate : Option String := none
  priority : Option String := none
  status : String := "Pending"
  tags : Option (List String) := none
  subtasks : List Subtask := []
deriving DecidableEq

/-- The possible keys of the plain-data object handed to `addTask` and
`updateTask`; `none` models an absent key. -/
structure Fields where
  id : Option String := none
  title : Option String := none
  description : Option String := none
  dueDate : Option String := none
  priority : Option String := none
  status : Option String := none
  tags : Option (List String) := none
  subtasks : Option (List Subtask) := none
deriving DecidableEq

/-- One key of a spread merge `{ ...old, ...new }`: the value from `new`
wins when the key is present there. -/
def overwrite {α : Type} (new old : Option α) : Option α :=
  match new with
  | some v => some v
  | none => old

/-- `{ ...task, ...updates }` for a task object: every key present in
`updates` replaces the task's value for that key. -/
def mergeTask (task : Task) (updates : Fields) : Task :=
  { id := updates.id.getD task.id
    title := overwrite updates.title task.title
    description := overwrite updates.description task.description
    dueDate := overwrite updates.dueDate task.dueDate
    priority := overwrite updates.priority task.priority
    status := updates.status.getD task.status
    tags := overwrite updates.tags task.tags
    subtasks := updates.subtasks.getD task.subtasks }

/-- The `newTask` object built by `addTask`:
`{ id: nanoid(), status: "Pending", subtasks: [], ...taskData }`.
The spread of `taskData` comes after the defaults, so any key present in
`taskData` (including `id`, `status`, `subtasks`) replaces the default.
`genId` stands for the value returned by `nanoid()`. -/
def mkNewTask (genId : String) (taskData : Fields) : Task :=
  mergeTask { id := genId, status := "Pending", subtasks := [] } taskData

/-- `addTask(taskData)`: prepends the new task to the collection. -/
def addTask (genId : String) (taskData : Fields) (tasks : List Task) : List Task :=
  mkNewTask genId taskData :: tasks

/-- `updateTask(id, updates)`: shallow-merges `updates` over every task
whose id matches. -/
def updateTask (id : String) (updates : Fields) (tasks : List Task) : List Task :=
  tasks.map fun task => if task.id == id then mergeTask task updates else task

/-- `deleteTask(id)`: keeps exactly the tasks whose id differs. -/
def deleteTask (id : String) (tasks : List Task) : List Task :=
  tasks.filter fun task => task.id != id

/-- `toggleStatus(id)`: flips `"Completed"` to `"Pending"` and anything
else to `"Completed"` on every task whose id matches. -/
def toggleStatus (id : String) (tasks : List Task) : List Task :=
  tasks.map fun task =>
    if task.id == id then
      { task with status := if task.status == "Completed" then "Pending" else "Completed" }
    else task

/-- `toggleSubtask(taskId, subtaskId)`: inside the task whose id matches
`taskId`, negates `done` on every subtask whose id matches `subtaskId`.
(The source guards with `task.subtasks || []`; in this model `subtasks` is
always present, so the guard is the list itself.) -/
def toggleSubtask (taskId subtaskId : String) (tasks : List Task) : List Task :=
  tasks.map fun task =>
    if task.id != taskId then task
    else
      { task with
          subtasks := task.subtasks.map fun sub =>
            if sub.id == subtaskId then { sub with done := !sub.done } else sub }

/-- Runs a sequence of `addTask` calls, oldest call first; the first
component of each call is the id `nanoid()` returns for it. -/
def runAdds (calls : List (String × Fields)) (tasks : List Task) : List Task :=
  match calls with
  | [] => tasks
  | c :: cs => runAdds cs (addTask c.1 c.2 tasks)

/-- The module-level `initialTasks` array; `gen k` stands for the value of
the `k`-th `nanoid()` call, in source order. -/
def initialTasks (gen : Nat → String) : List Task :=
  [ { id := gen 0
      title := some "Finish React homework"
      description := some "Work on the notes app UI and connect it to Zustand + React Router."
      dueDate := some "2025-11-14"
      priority := some "High"
      status := "Pending"
      tags := some ["Learning", "React"]
      subtasks :=
        [ { id := gen 1, text := "Review requirements", done := false }
        , { id := gen 2, text := "Connect store to UI", done := false } ] }
  , { id := gen 3
      title := some "Prepare JS class"
      description := some "Plan examples for array methods and localStorage practice."
      dueDate := some "2025-11-15"
      priority := some "Medium"
      status := "Pending"
      tags := some ["Teaching", "Daily"]
      subtasks :=
        [ { id := gen 4, text := "Pick 3 array methods", done := true }
        , { id := gen 5, text := "Write mini exercises", done := false } ] }
  , { id := gen 6
      title := some "Workout + stretch"
      description := some "Quick walk + stretch session to reset after coding."
      dueDate := some "2025-11-14"
      priority := some "Low"
      status := "Completed"
      tags := some ["Health", "Daily"]
      subtasks :=
        [ { id := gen 7, text := "10 min walk", done := true }
        , { id := gen 8, text := "Stretch legs + back", done := true } ] } ]

/-- `t.status` is one of the two documented status values. -/
def statusOk (t : Task) : Bool :=
  t.status == "Pending" || t.status == "Completed"

/-- Every task in the collection has a binary status. -/
abbrev StatusInv (tasks : List Task) : Prop :=
  ∀ t ∈ tasks, statusOk t = true

/-- `t'` agrees with `t` on every key that `u` does not supply. -/
def unchangedOutside (u : Fields) (t t' : Task) : Prop :=
  (u.id = none → t'.id = t.id) ∧
  (u.title = none → t'.title = t.title) ∧
  (u.description = none → t'.description = t.description) ∧
  (u.dueDate = none → t'.dueDate = t.dueDate) ∧
  (u.priority = none → t'.priority = t.priority) ∧
  (u.status = none → t'.status = t.status) ∧
  (u.tags = none → t'.tags = t.tags) ∧
  (u.subtasks = none → t'.subtasks = t.subtasks)

/-- Every key that `u` supplies holds the supplied value in `t'`. -/
def appliedFields (u : Fields) (t' : Task) : Prop :=
  (∀ v, u.id = some v → t'.id = v) ∧
  (∀ v, u.title = some v → t'.title = some v) ∧
  (∀ v, u.description = some v → t'.description = some v) ∧
  (∀ v, u.dueDate = some v → t'.dueDate = some v) ∧
  (∀ v, u.priority = some v → t'.priority = some v) ∧
  (∀ v, u.status = some v → t'.status = v) ∧
  (∀ v, u.tags = some v → t'.tags = some v) ∧
  (∀ v, u.subtasks = some v → t'.subtasks = v)

/-! ### Filter engine (`TaskList`) -/

/-- The five-dimension filter specification handed to `TaskList`. -/
structure Filters where
  search : String
  status : String
  priority : String
  tag : String
  date : String
deriving DecidableEq

/-- `String.prototype.toLowerCase`, character by character. -/
def jsToLower (s : String) : String :=
  ⟨s.data.map Char.toLower⟩

/-- `String.prototype.trim`: whitespace stripped from both ends. -/
def jsTrim (s : String) : String :=
  ⟨((s.data.dropWhile Char.isWhitespace).reverse.dropWhile Char.isWhitespace).reverse⟩

/-- Contiguous-substring test on character lists. -/
def listIncludes (hay needle : List Char) : Bool :=
  needle.isPrefixOf hay ||
    match hay with
    | [] => false
    | _ :: t => listIncludes t needle

/-- `hay.includes(needle)` for strings. -/
def jsIncludes (hay needle : String) : Bool :=
  listIncludes hay.data needle.data

/-- `matchesSearch`: blank search matches everything, otherwise the title
or the description must contain the search text case-insensitively.  A
missing title or description is read as `""` (the UI creates tasks with
both present). -/
def matchesSearch (f : Filters) (t : Task) : Bool :=
  jsTrim f.search == "" ||
    jsIncludes (jsToLower (t.title.getD "")) (jsToLower f.search) ||
    jsIncludes (jsToLower (t.description.getD "")) (jsToLower f.search)

/-- `matchesStatus`. -/
def matchesStatus (f : Filters) (t : Task) : Bool :=
  f.status == "all" || t.status == f.status

/-- `matchesPriority`: an absent priority compares unequal to any
selected value, as `undefined === v` is false. -/
def matchesPriority (f : Filters) (t : Task) : Bool :=
  f.priority == "all" || t.priority == some f.priority

/-- `matchesTag`: `task.tags && task.tags.some(tag => tag === filters.tag)`. -/
def matchesTag (f : Filters) (t : Task) : Bool :=
  f.tag == "all" ||
    match t.tags with
    | some tags => tags.any fun tag => tag == f.tag
    | none => false

/-- `matchesDate`.  Calendar days are abstracted to integers: `parseDay s`
is the local-midnight-truncated day of `new Date(s)` and `today` the
truncated current day, so day differences are exact integers.  A missing
`dueDate` key and a `""` value are both falsy in `!task.dueDate`. -/
def matchesDate (parseDay : String → Int) (today : Int) (f : Filters) (t : Task) : Bool :=
  if f.date == "all" || t.dueDate.getD "" == "" then true
  else
    let due := parseDay (t.dueDate.getD "")
    if f.date == "today" then due == today
    else if f.date == "overdue" then decide (due < today) && !(t.status == "Completed")
    else if f.date == "week" then
      let diffDays := due - today
      decide (0 ≤ diffDays) && decide (diffDays ≤ 7)
    else true

/-- The conjunction of the five predicates of `TaskList`. -/
def taskMatches (parseDay : String → Int) (today : Int) (f : Filters) (t : Task) : Bool :=
  matchesSearch f t && matchesStatus f t && matchesPriority f t &&
    matchesTag f t && matchesDate parseDay today f t

/-- `filteredTasks = tasks.filter(...)`. -/
def filterTasks (parseDay : String → Int) (today : Int) (f : Filters)
    (tasks : List Task) : List Task :=
  tasks.filter (taskMatches parseDay today f)

/-! ### Helper lemmas -/

/-- A map whose function fixes every element of the list is the identity. -/
theorem map_self_of_mem {α : Type} (l : List α) (f : α → α) (h : ∀ a ∈ l, f a = a) :
    l.map f = l := by
  induction l with
  | nil => rfl
  | cons a t ih =>
    simp only [List.map_cons]
    rw [h a (List.mem_cons_self a t), ih fun x hx => h x (List.mem_cons_of_mem a hx)]

/-- A pointwise weaker predicate filters a superset, of no smaller length. -/
theorem filter_superset_of_imp {α : Type} (l : List α) (p q : α → Bool)
    (h : ∀ a, p a = true → q a = true) :
    l.filter p ⊆ l.filter q ∧ (l.filter p).length ≤ (l.filter q).length :=
  ⟨(List.monotone_filter_right l h).subset, (List.monotone_filter_right l h).length_le⟩

/-! ### C1 — id uniqueness across addTask sequences -/

/-- C1 fails as stated: two `addTask` calls whose `fields` carry the same
`id` key produce two tasks with the same id (the caller's id overrides the
generated one), and a starting state that already repeats an id stays
duplicated under an empty call sequence. -/
theorem addTask_ids_not_nodup_counterexample :
    ¬ ((runAdds [("g1", { id := some "a" }), ("g2", { id := some "a" })] []).map Task.id).Nodup ∧
    ¬ ((runAdds [] [{ id := "a" }, { id := "a", title := some "x" }]).map Task.id).Nodup := by
  constructor <;> decide

/-- C1 (amended): if the starting state's ids are pairwise distinct, no
`fields` argument supplies an `id` key, and the generated ids are pairwise
distinct and do not occur in the starting state, then after any sequence of
`addTask` calls all task ids are pairwise distinct. -/
theorem addTask_ids_nodup (start : List Task) (calls : List (String × Fields))
    (h1 : (start.map Task.id).Nodup)
    (h2 : ∀ c ∈ calls, c.2.id = none)
    (h3 : (calls.map Prod.fst).Nodup)
    (h4 : ∀ c ∈ calls, c.1 ∉ start.map Task.id) :
    ((runAdds calls start).map Task.id).Nodup := by
  induction calls generalizing start with
  | nil => exact h1
  | cons c cs ih =>
    have hid : (mkNewTask c.1 c.2).id = c.1 := by
      simp [mkNewTask, mergeTask, h2 c (List.mem_cons_self _ _)]
    have hmap : (addTask c.1 c.2 start).map Task.id = c.1 :: start.map Task.id := by
      simp [addTask, hid]
    rw [List.map_cons] at h3
    have h3' := List.nodup_cons.mp h3
    simp only [runAdds]
    apply ih
    · rw [hmap]
      exact List.nodup_cons.mpr ⟨h4 c (List.mem_cons_self _ _), h1⟩
    · exact fun c' hc' => h2 c' (List.mem_cons_of_mem _ hc')
    · exact h3'.2
    · intro c' hc'
      rw [hmap]
      intro hmem
      rcases List.mem_cons.mp hmem with h | h
      · exact h3'.1 (h ▸ List.mem_map_of_mem Prod.fst hc')
      · exact h4 c' (List.mem_cons_of_mem _ hc') h

theorem addTask_ids_nodup_witness :
    ((runAdds [("g1", ({} : Fields)), ("g2", ({} : Fields))] []).map Task.id).Nodup :=
  addTask_ids_nodup [] [("g1", {}), ("g2", {})] (by decide) (by decide) (by decide) (by decide)

/-! ### C2 — defaults of a freshly created task -/

/-- C2 fails as stated: when `fields` carries a `status` key its value
overrides the `"Pending"` default, because `...taskData` is spread after
the defaults. -/
theorem addTask_status_override_counterexample :
    (addTask "g" { status := some "Completed" } []).map Task.status ≠ ["Pending"] := by
  decide

/-- C2 (amended): the task created by `addTask` has status `"Pending"`
whenever `fields` supplies no status, and an empty subtask list whenever
`fields` supplies no subtasks. -/
theorem addTask_defaults (genId : String) (taskData : Fields) (tasks : List Task) :
    addTask genId taskData tasks = mkNewTask genId taskData :: tasks ∧
    (taskData.status = none → (mkNewTask genId taskData).status = "Pending") ∧
    (taskData.subtasks = none → (mkNewTask genId taskData).subtasks = []) := by
  refine ⟨rfl, fun h => ?_, fun h => ?_⟩ <;> simp [mkNewTask, mergeTask, h]

theorem addTask_defaults_witness :
    (mkNewTask "g" ({} : Fields)).status = "Pending" :=
  (addTask_defaults "g" {} []).2.1 rfl

/-! ### C3 — binary status invariant -/

/-- C3 fails as stated: `updateTask` merges an arbitrary caller-supplied
`status` value, so a state satisfying the invariant can leave it. -/
theorem status_invariant_counterexample :
    StatusInv [{ id := "a" }] ∧
    ¬ StatusInv (updateTask "a" { status := some "Doing" } [{ id := "a" }]) := by
  constructor <;> decide

/-- C3 (amended): the binary-status predicate holds for the initial data
(whatever ids `nanoid` produced) and is preserved by `deleteTask`,
`toggleStatus` and `toggleSubtask` for every argument, and by `addTask` and
`updateTask` whenever the supplied fields omit `status` or set it to
`"Pending"` or `"Completed"`. -/
theorem status_invariant_preserved (gen : Nat → String) (genId id taskId subtaskId : String)
    (u : Fields) (tasks : List Task) :
    StatusInv (initialTasks gen) ∧
    (StatusInv tasks → StatusInv (deleteTask id tasks)) ∧
    (StatusInv tasks → StatusInv (toggleStatus id tasks)) ∧
    (StatusInv tasks → StatusInv (toggleSubtask taskId subtaskId tasks)) ∧
    (StatusInv tasks → (u.status = none ∨ u.status = some "Pending" ∨ u.status = some "Completed") →
      StatusInv (addTask genId u tasks) ∧ StatusInv (updateTask id u tasks)) := by
  refine ⟨?_, ?_, ?_, ?_, ?_⟩
  · intro t ht
    simp only [initialTasks, List.mem_cons, List.not_mem_nil, or_false] at ht
    rcases ht with rfl | rfl | rfl <;> rfl
  · intro hInv t ht
    exact hInv t (List.mem_of_mem_filter ht)
  · intro hInv t' ht'
    simp only [toggleStatus] at ht'
    rcases List.mem_map.mp ht' with ⟨t, ht, rfl⟩
    by_cases hid : (t.id == id) = true
    · by_cases hc : (t.status == "Completed") = true <;> simp [hid, hc, statusOk]
    · simpa [hid] using hInv t ht
  · intro hInv t' ht'
    simp only [toggleSubtask] at ht'
    rcases List.mem_map.mp ht' with ⟨t, ht, rfl⟩
    by_cases hid : (t.id != taskId) = true
    · simpa [hid] using hInv t ht
    · simpa [hid, statusOk] using hInv t ht
  · intro hInv hu
    constructor
    · intro t' ht'
      rcases List.mem_cons.mp ht' with rfl | ht
      · rcases hu with h | h | h <;> simp [mkNewTask, mergeTask, statusOk, h]
      · exact hInv _ ht
    · intro t' ht'
      simp only [updateTask] at ht'
      rcases List.mem_map.mp ht' with ⟨t, ht, rfl⟩
      by_cases hid : (t.id == id) = true
      · rcases hu with h | h | h
        · simpa [hid, mergeTask, statusOk, h] using hInv t ht
        · simp [hid, mergeTask, statusOk, h]
        · simp [hid, mergeTask, statusOk, h]
      · simpa [hid] using hInv t ht

theorem status_invariant_preserved_witness :
    StatusInv (toggleStatus "a" [{ id := "a" }]) :=
  (status_invariant_preserved (fun _ => "x") "g" "a" "a" "s" {} [{ id := "a" }]).2.2.1
    (by decide)

/-! ### C4 — unknown ids are structural no-ops -/

/-- C4: when no task carries `id`, and no subtask of a task carrying
`taskId` carries `subtaskId`, each of the four operations returns the
collection unchanged, task for task and field for field. -/
theorem noop_on_unknown_id (tasks : List Task) (id taskId subtaskId : String) (u : Fields)
    (h1 : ∀ t ∈ tasks, t.id ≠ id)
    (h2 : ∀ t ∈ tasks, t.id = taskId → ∀ s ∈ t.subtasks, s.id ≠ subtaskId) :
    updateTask id u tasks = tasks ∧ deleteTask id tasks = tasks ∧
    toggleStatus id tasks = tasks ∧ toggleSubtask taskId subtaskId tasks = tasks := by
  refine ⟨?_, ?_, ?_, ?_⟩
  · apply map_self_of_mem
    intro t ht
    simp [beq_eq_false_iff_ne.mpr (h1 t ht)]
  · exact List.filter_eq_self.mpr fun t ht => bne_iff_ne.mpr (h1 t ht)
  · apply map_self_of_mem
    intro t ht
    simp [beq_eq_false_iff_ne.mpr (h1 t ht)]
  · apply map_self_of_mem
    intro t ht
    by_cases hid : (t.id != taskId) = true
    · simp [hid]
    · have hid' : t.id = taskId := by
        simpa using hid
      have hsub : t.subtasks.map
          (fun sub => if sub.id == subtaskId then { sub with done := !sub.done } else sub) =
          t.subtasks := by
        apply map_self_of_mem
        intro s hs
        simp [beq_eq_false_iff_ne.mpr (h2 t ht hid' s hs)]
      rw [if_neg hid, hsub]

theorem noop_on_unknown_id_witness :
    updateTask "z" { title := some "y" } [{ id := "a" }] = [{ id := "a" }] ∧
    deleteTask "z" [{ id := "a" }] = [{ id := "a" }] ∧
    toggleStatus "z" [{ id := "a" }] = [{ id := "a" }] ∧
    toggleSubtask "a" "s" [{ id := "a" }] = [{ id := "a" }] :=
  noop_on_unknown_id [{ id := "a" }] "z" "a" "s" { title := some "y" }
    (by decide) (by decide)

/-! ### C5 — updateTask is targeted -/

/-- C5 fails as stated: when two tasks share the given id (reachable,
since `addTask` lets a caller-supplied id through), `updateTask` merges
the update into both, so a task other than the targeted one changes. -/
theorem updateTask_duplicate_id_counterexample :
    ((([{ id := "a" }, { id := "a", title := some "x" }] : List Task).map Task.id) = ["a", "a"]) ∧
    updateTask "a" { title := some "y" } [{ id := "a" }, { id := "a", title := some "x" }] =
      [{ id := "a", title := some "y" }, { id := "a", title := some "y" }] ∧
    ({ id := "a", title := some "x" } : Task) ≠ { id := "a", title := some "y" } := by
  refine ⟨?_, ?_, ?_⟩ <;> decide

/-- C5 (amended): when exactly one task carries the given id,
`updateTask` replaces just that task by its shallow merge with the update:
every other task is returned in place, every key the update omits keeps
its old value, and every key the update supplies takes the new value. -/
theorem updateTask_targeted (pre post : List Task) (target : Task) (id : String) (u : Fields)
    (hTarget : target.id = id)
    (hPre : ∀ t ∈ pre, t.id ≠ id) (hPost : ∀ t ∈ post, t.id ≠ id) :
    updateTask id u (pre ++ target :: post) = pre ++ mergeTask target u :: post ∧
    unchangedOutside u target (mergeTask target u) ∧
    appliedFields u (mergeTask target u) := by
  refine ⟨?_, ?_, ?_⟩
  · have hf : ∀ t ∈ pre, (if t.id == id then mergeTask t u else t) = t := fun t ht => by
      simp [beq_eq_false_iff_ne.mpr (hPre t ht)]
    have hg : ∀ t ∈ post, (if t.id == id then mergeTask t u else t) = t := fun t ht => by
      simp [beq_eq_false_iff_ne.mpr (hPost t ht)]
    simp only [updateTask, List.map_append, List.map_cons]
    rw [if_pos (by simp [hTarget]), map_self_of_mem pre _ hf, map_self_of_mem post _ hg]
  · refine ⟨?_, ?_, ?_, ?_, ?_, ?_, ?_, ?_⟩ <;>
      intro h <;> simp [mergeTask, overwrite, h]
  · refine ⟨?_, ?_, ?_, ?_, ?_, ?_, ?_, ?_⟩ <;>
      intro v hv <;> simp [mergeTask, overwrite, hv]

theorem updateTask_targeted_witness :
    updateTask "a" { title := some "y" } [{ id := "a" }, { id := "b" }] =
      [mergeTask { id := "a" } { title := some "y" }, ({ id := "b" } : Task)] :=
  (updateTask_targeted [] [{ id := "b" }] { id := "a" } "a" { title := some "y" }
    rfl (by decide) (by decide)).1

/-! ### C6 — how much deleteTask removes -/

/-- C6 fails as stated: with two tasks sharing the id (reachable through
a caller-supplied id), `deleteTask` removes both, and the length drops by
two, not one. -/
theorem deleteTask_duplicate_id_counterexample :
    (∃ t ∈ ([{ id := "a" }, { id := "a", title := some "x" }] : List Task), t.id = "a") ∧
    (deleteTask "a" [{ id := "a" }, { id := "a", title := some "x" }]).length ≠
      ([{ id := "a" }, { id := "a", title := some "x" }] : List Task).length - 1 := by
  constructor
  · exact ⟨{ id := "a" }, by decide, rfl⟩
  · decide

/-- C6 (amended): `deleteTask id` shortens the collection by exactly the
number of tasks whose id equals `id` — by zero when the id is absent, and
by one when exactly one task carries it. -/
theorem deleteTask_length (tasks : List Task) (id : String) :
    (deleteTask id tasks).length + (tasks.countP fun t => t.id == id) = tasks.length ∧
    ((∀ t ∈ tasks, t.id ≠ id) → (deleteTask id tasks).length = tasks.length) ∧
    ((tasks.countP fun t => t.id == id) = 1 → (deleteTask id tasks).length + 1 = tasks.length) := by
  have key : (deleteTask id tasks).length + (tasks.countP fun t => t.id == id) = tasks.length := by
    induction tasks with
    | nil => rfl
    | cons t ts ih =>
      by_cases h : (t.id == id) = true <;>
        simp [deleteTask, List.filter_cons, List.countP_cons, h, bne] at ih ⊢ <;> omega
  refine ⟨key, fun hall => ?_, fun hone => ?_⟩
  · have : (tasks.countP fun t => t.id == id) = 0 :=
      List.countP_eq_zero.mpr fun t ht => by
        simp [beq_eq_false_iff_ne.mpr (hall t ht)]
    omega
  · omega

theorem deleteTask_length_witness :
    (deleteTask "a" [{ id := "a" }, { id := "b" }]).length + 1 =
      ([{ id := "a" }, { id := "b" }] : List Task).length :=
  (deleteTask_length [{ id := "a" }, { id := "b" }] "a").2.2 (by decide)

/-! ### C7 — double toggles restore -/

/-- C7 fails as stated: a task whose status is outside the binary set
(reachable through `updateTask`) is sent to `"Completed"` and then to
`"Pending"`, not back to its original value. -/
theorem toggleStatus_nonbinary_counterexample :
    toggleStatus "a" (toggleStatus "a" [{ id := "a", status := "Later" }]) ≠
      [{ id := "a", status := "Later" }] := by
  decide

/-- C7 (amended): when every task's status is `"Pending"` or
`"Completed"`, applying `toggleStatus id` twice returns the collection to
its original value, and applying `toggleSubtask taskId subtaskId` twice
always does. -/
theorem toggle_twice_restores (tasks : List Task) (id taskId subtaskId : String)
    (h : StatusInv tasks) :
    toggleStatus id (toggleStatus id tasks) = tasks ∧
    toggleSubtask taskId subtaskId (toggleSubtask taskId subtaskId tasks) = tasks := by
  constructor
  · simp only [toggleStatus, List.map_map]
    apply map_self_of_mem
    intro t ht
    by_cases hid : (t.id == id) = true
    · have hs := h t ht
      simp only [statusOk, Bool.or_eq_true, beq_iff_eq] at hs
      obtain ⟨tid, ttitle, tdesc, tdue, tprio, tst, ttags, tsubs⟩ := t
      simp only at hid
      rcases hs with hs | hs <;> simp only at hs <;> subst hs <;>
        simp [Function.comp, hid]
    · simp [Function.comp, hid]
  · simp only [toggleSubtask, List.map_map]
    apply map_self_of_mem
    intro t ht
    by_cases hid : (t.id != taskId) = true
    · simp [Function.comp, hid]
    · have hsub : ∀ subs : List Subtask, (subs.map
          (fun sub => if sub.id == subtaskId then { sub with done := !sub.done } else sub)).map
          (fun sub => if sub.id == subtaskId then { sub with done := !sub.done } else sub) =
          subs := by
        intro subs
        rw [List.map_map]
        apply map_self_of_mem
        intro s hs
        by_cases hsid : (s.id == subtaskId) = true
        · obtain ⟨sid, stext, sdone⟩ := s
          simp only at hsid
          simp [Function.comp, hsid]
        · simp [Function.comp, hsid]
      simp only [Function.comp]
      rw [if_neg hid, if_neg (by simpa using hid), hsub]

theorem toggle_twice_restores_witness :
    toggleStatus "a" (toggleStatus "a" [{ id := "a" }]) = [{ id := "a" }] :=
  (toggle_twice_restores [{ id := "a" }] "a" "a" "s" (by decide)).1

/-! ### C8 — relaxing one filter dimension grows the result -/

/-- C8: for any task collection and filter specification, replacing any
single dimension by its match-all value yields a filtered list that
contains the original one, so its length is no smaller. -/
theorem filter_relax_superset (parseDay : String → Int) (today : Int) (f : Filters)
    (tasks : List Task) :
    (filterTasks parseDay today f tasks ⊆ filterTasks parseDay today { f with search := "" } tasks ∧
      (filterTasks parseDay today f tasks).length ≤
        (filterTasks parseDay today { f with search := "" } tasks).length) ∧
    (filterTasks parseDay today f tasks ⊆ filterTasks parseDay today { f with status := "all" } tasks ∧
      (filterTasks parseDay today f tasks).length ≤
        (filterTasks parseDay today { f with status := "all" } tasks).length) ∧
    (filterTasks parseDay today f tasks ⊆ filterTasks parseDay today { f with priority := "all" } tasks ∧
      (filterTasks parseDay today f tasks).length ≤
        (filterTasks parseDay today { f with priority := "all" } tasks).length) ∧
    (filterTasks parseDay today f tasks ⊆ filterTasks parseDay today { f with tag := "all" } tasks ∧
      (filterTasks parseDay today f tasks).length ≤
        (filterTasks parseDay today { f with tag := "all" } tasks).length) ∧
    (filterTasks parseDay today f tasks ⊆ filterTasks parseDay today { f with date := "all" } tasks ∧
      (filterTasks parseDay today f tasks).length ≤
        (filterTasks parseDay today { f with date := "all" } tasks).length) := by
  have hs1 : ∀ t : Task, matchesSearch { f with search := "" } t = true := by
    intro t
    have h0 : (jsTrim "" == "") = true := by decide
    simp [matchesSearch, h0]
  have hs2 : ∀ t : Task, matchesStatus { f with status := "all" } t = true := by
    intro t; simp [matchesStatus]
  have hs3 : ∀ t : Task, matchesPriority { f with priority := "all" } t = true := by
    intro t; simp [matchesPriority]
  have hs4 : ∀ t : Task, matchesTag { f with tag := "all" } t = true := by
    intro t; simp [matchesTag]
  have hs5 : ∀ t : Task, matchesDate parseDay today { f with date := "all" } t = true := by
    intro t; simp [matchesDate]
  refine ⟨?_, ?_, ?_, ?_, ?_⟩ <;> apply filter_superset_of_imp <;> intro t ht <;>
    simp only [taskMatches, Bool.and_eq_true] at ht ⊢
  · exact ⟨⟨⟨⟨hs1 t, ht.1.1.1.2⟩, ht.1.1.2⟩, ht.1.2⟩, ht.2⟩
  · exact ⟨⟨⟨⟨ht.1.1.1.1, hs2 t⟩, ht.1.1.2⟩, ht.1.2⟩, ht.2⟩
  · exact ⟨⟨⟨ht.1.1.1, hs3 t⟩, ht.1.2⟩, ht.2⟩
  · exact ⟨⟨ht.1.1, hs4 t⟩, ht.2⟩
  · exact ⟨ht.1, hs5 t⟩

/-! ### C9 — the "week" date window -/

/-- C9: with the date dimension set to `"week"`, the date predicate holds
iff the task has no due date (a missing or empty `dueDate`) or its due
day, measured in whole calendar days, lies in the inclusive window from
today to seven days later. -/
theorem week_filter_iff (parseDay : String → Int) (today : Int) (f : Filters) (t : Task)
    (h : f.date = "week") :
    (matchesDate parseDay today f t = true ↔
      (t.dueDate.getD "" = "" ∨
        (today ≤ parseDay (t.dueDate.getD "") ∧ parseDay (t.dueDate.getD "") ≤ today + 7))) := by
  have hWA : (("week" : String) == "all") = false := by decide
  have hWT : (("week" : String) == "today") = false := by decide
  have hWO : (("week" : String) == "overdue") = false := by decide
  have hWW : (("week" : String) == "week") = true := by decide
  by_cases hd : (t.dueDate.getD "" == "") = true
  · have hd' : t.dueDate.getD "" = "" := by simpa using hd
    simp [matchesDate, h, hWA, hd, hd']
  · have hd' : ¬ t.dueDate.getD "" = "" := by simpa using hd
    simp [matchesDate, h, hWA, hWT, hWO, hWW, hd, hd']
    omega

theorem week_filter_iff_witness :
    matchesDate (fun _ => (3 : Int)) 0 ⟨"", "all", "all", "all", "week"⟩
      { id := "x", dueDate := some "d" } = true :=
  (week_filter_iff (fun _ => (3 : Int)) 0 ⟨"", "all", "all", "all", "week"⟩
    { id := "x", dueDate := some "d" } rfl).mpr (Or.inr ⟨by decide, by decide⟩)

/-! ### C10 — caller-supplied fields win over the generated defaults -/

/-- C10: `addTask` merges the caller's fields after the generated
defaults, so every key present in the argument wins: in particular a
caller-supplied id replaces the freshly generated one, and a supplied
status or subtasks value replaces the `"Pending"` / `[]` default. -/
theorem addTask_fields_override (genId : String) (taskData : Fields) (tasks : List Task) :
    addTask genId taskData tasks = mkNewTask genId taskData :: tasks ∧
    appliedFields taskData (mkNewTask genId taskData) := by
  refine ⟨rfl, ?_, ?_, ?_, ?_, ?_, ?_, ?_, ?_⟩ <;>
    intro v hv <;> simp [mkNewTask, mergeTask, overwrite, hv]

theorem addTask_fields_override_witness :
    (mkNewTask "g" { id := some "a" }).id = "a" :=
  (addTask_fields_override "g" { id := some "a" } []).2.1 "a" rfl

end TodoApp
